import Mathlib

/-!
Verification of the DevDocs-AI specification against its source.

Shallow embedding of:
- the pgvector similarity-search functions of the Supabase migrations
  (supabase/migrations/008_fix_match_function.sql : match_documents,
   supabase/migrations/007_fix_chunks_table.sql : match_chunks);
- the frontend processing-status renderers
  (the standalone ProcessingStatus component and the inline copy in
   frontend/components/ChatInterface.tsx);
- the document deletion path (frontend/components/DocumentList.tsx
  handleDelete, together with the ON DELETE CASCADE declaration of
  the api_chunks table);
- the browser session storage (frontend/utils/sessionStorage.ts);
- the answer generator with its extractive fallback (backend component,
  modelled from the specification because the backend sources are not
  part of the repository snapshot).
-/

namespace DevDocs

/-! ## Vector store rows and the similarity-search functions -/

/-- Row of the api_chunks table, generic in the numeric type used for
embedding coordinates and scores. Mirrors the columns selected by the
match functions: id, doc_id, chunk_text, metadata, embedding, chunk_index. -/
structure ApiChunk (α : Type) where
  id : Nat
  doc_id : Nat
  chunk_text : String
  metadata : List (String × String)
  embedding : List α
  chunk_index : Int
deriving DecidableEq

/-- Row of the result table of match_documents:
(id, doc_id, chunk_text, metadata, chunk_index, similarity). -/
structure MatchResult (α : Type) where
  id : Nat
  doc_id : Nat
  chunk_text : String
  metadata : List (String × String)
  chunk_index : Int
  similarity : α
deriving DecidableEq

/-- Row of the result table of match_chunks:
(id, chunk_text, metadata, similarity). -/
structure ChunkResult (α : Type) where
  id : Nat
  chunk_text : String
  metadata : List (String × String)
  similarity : α
deriving DecidableEq

variable {α : Type} [LinearOrderedRing α]

/-- Value of the SQL expression 1 - (api_chunks.embedding <=> query_embedding)
for one row, where dist models the pgvector <=> distance operator. -/
def similarityTo (dist : List α → List α → α) (query_embedding : List α)
    (c : ApiChunk α) : α :=
  1 - dist c.embedding query_embedding

/-- Value of the CASE expression of match_documents: when the JSONB filter
carries a doc_id key the row must belong to that document, otherwise TRUE. -/
def matchesDocFilter (filter : Option Nat) (c : ApiChunk α) : Bool :=
  match filter with
  | some d => decide (c.doc_id = d)
  | none => true

/-- Embedding of match_documents from 008_fix_match_function.sql:
rows of api_chunks satisfying
  1 - (embedding <=> query_embedding) > match_threshold
and the doc_id CASE filter, ordered by embedding <=> query_embedding
(ascending distance), limited to match_count rows, projected to the
result columns with similarity = 1 - (embedding <=> query_embedding).
The pgvector <=> operator is passed as the dist parameter; the table
contents are passed as a list of rows in storage order. -/
def match_documents (dist : List α → List α → α) (table : List (ApiChunk α))
    (query_embedding : List α) (match_threshold : α) (match_count : Nat)
    (filter : Option Nat) : List (MatchResult α) :=
  ((((table.filter (fun c =>
        decide (similarityTo dist query_embedding c > match_threshold) &&
        matchesDocFilter filter c)).insertionSort
      (fun a b => dist a.embedding query_embedding ≤ dist b.embedding query_embedding)).take
    match_count).map
    (fun c => ⟨c.id, c.doc_id, c.chunk_text, c.metadata, c.chunk_index,
      similarityTo dist query_embedding c⟩))

/-- Embedding of match_chunks from 007_fix_chunks_table.sql: rows satisfying
  (doc_id IS NULL OR api_chunks.doc_id = match_chunks.doc_id)
  AND 1 - (embedding <=> query_embedding) > match_threshold,
ordered by ascending distance, limited to match_count, projected to
(id, chunk_text, metadata, similarity). -/
def match_chunks (dist : List α → List α → α) (table : List (ApiChunk α))
    (query_embedding : List α) (match_threshold : α) (match_count : Nat)
    (doc_id : Option Nat) : List (ChunkResult α) :=
  ((((table.filter (fun c =>
        (match doc_id with
         | none => true
         | some d => decide (c.doc_id = d)) &&
        decide (similarityTo dist query_embedding c > match_threshold))).insertionSort
      (fun a b => dist a.embedding query_embedding ≤ dist b.embedding query_embedding)).take
    match_count).map
    (fun c => ⟨c.id, c.chunk_text, c.metadata,
      similarityTo dist query_embedding c⟩))

/-- DEFAULT of the match_threshold parameter of match_documents
(008_fix_match_function.sql line 12: FLOAT DEFAULT 0.78). -/
def match_documents_default_threshold : ℚ := 78 / 100

/-- DEFAULT of the match_count parameter of match_documents
(008_fix_match_function.sql line 13: INT DEFAULT 5). -/
def match_documents_default_count : Nat := 5

/-- DEFAULT of the match_threshold parameter of match_chunks
(007_fix_chunks_table.sql line 22: float DEFAULT 0.1). -/
def match_chunks_default_threshold : ℚ := 1 / 10

/-- DEFAULT of the match_count parameter of match_chunks
(007_fix_chunks_table.sql line 23: int DEFAULT 5). -/
def match_chunks_default_count : Nat := 5

/-! ## Cosine distance of pgvector

The migrations index api_chunks.embedding with vector_cosine_ops, so the
<=> operator used by both match functions is cosine distance:
1 - dot(u,v) / (norm u * norm v). -/

/-- Dot product of two coordinate lists (pointwise product, summed;
trailing coordinates of the longer vector are ignored, which never happens
on well-formed stores since the column has a fixed dimension). -/
def dotList : List ℝ → List ℝ → ℝ
  | a :: u, b :: v => a * b + dotList u v
  | _, _ => 0

/-- Cosine distance, the semantics of the pgvector <=> operator under
vector_cosine_ops: one minus the cosine of the angle between the vectors. -/
noncomputable def cosineDistance (u v : List ℝ) : ℝ :=
  1 - dotList u v / (Real.sqrt (dotList u u) * Real.sqrt (dotList v v))

/-! ## Frontend status rendering -/

/-- Kinds of status line the two ProcessingStatus renderers can produce. -/
inductive StatusDisplay : Type
  | ready
  | failed
  | processing
  | loading
  | checking
deriving DecidableEq

/-- Embedding of the standalone ProcessingStatus component (the document
list variant): the first branch tests status === 'ready' || chunkCount > 0
and renders the Ready line, then failed, processing, loading, and a
default Checking status line. -/
def renderProcessingStatus (status : String) (chunkCount : Int) : StatusDisplay :=
  if status = "ready" ∨ chunkCount > 0 then StatusDisplay.ready
  else if status = "failed" then StatusDisplay.failed
  else if status = "processing" then StatusDisplay.processing
  else if status = "loading" then StatusDisplay.loading
  else StatusDisplay.checking

/-- Embedding of the inline ProcessingStatus component of
frontend/components/ChatInterface.tsx: a switch on the status string alone
with cases ready, processing, failed and a default; the chunkCount prop is
only interpolated into the Ready label, never branched on. -/
def chatProcessingStatus (status : String) (chunkCount : Int) : StatusDisplay :=
  if status = "ready" then StatusDisplay.ready
  else if status = "processing" then StatusDisplay.processing
  else if status = "failed" then StatusDisplay.failed
  else StatusDisplay.checking

/-! ## Document deletion -/

/-- Row of the api_documents table, restricted to the columns the deletion
path touches. -/
structure ApiDocument where
  id : Nat
  name : String
  storage_path : String
  status : String
  chunk_count : Nat
deriving DecidableEq

/-- Database state: the api_documents and api_chunks tables. -/
structure Db (α : Type) where
  documents : List ApiDocument
  chunks : List (ApiChunk α)

/-- Deletion of a row of api_documents by id. The schema declares
api_chunks.doc_id REFERENCES api_documents(id) ON DELETE CASCADE, so the
database also removes every chunk row whose doc_id equals the deleted id. -/
def deleteDocumentRow {α : Type} (db : Db α) (docId : Nat) : Db α :=
  { documents := db.documents.filter (fun d => !(decide (d.id = docId))),
    chunks := db.chunks.filter (fun c => !(decide (c.doc_id = docId))) }

/-- Deletion of the api_chunks rows of one document, the explicit
from('api_chunks').delete().eq('doc_id', docId) step of handleDelete. -/
def deleteChunksByDoc {α : Type} (db : Db α) (docId : Nat) : Db α :=
  { db with chunks := db.chunks.filter (fun c => !(decide (c.doc_id = docId))) }

/-- Embedding of handleDelete of frontend/components/DocumentList.tsx:
delete the api_documents row (cascading to its chunks), then explicitly
delete the api_chunks rows of the document. The storage-object removal in
between does not touch either table. -/
def handleDelete {α : Type} (db : Db α) (docId : Nat) : Db α :=
  deleteChunksByDoc (deleteDocumentRow db docId) docId

/-! ## Session storage (frontend/utils/sessionStorage.ts) -/

/-- Stored session shape; expires_at is an optional epoch-seconds number. -/
structure StoredSession where
  access_token : String
  refresh_token : String
  user_id : String
  expires_at : Option Int
deriving DecidableEq

/-- Content of the localStorage slot under the devdocs-session key. -/
abbrev SessionStore := Option StoredSession

/-- Embedding of sessionStorage.getSession: the stored value, or null. -/
def getSession (store : SessionStore) : Option StoredSession := store

/-- Embedding of sessionStorage.clearSession: removes the stored value. -/
def clearSession (_ : SessionStore) : SessionStore := none

/-- Truthiness of the JavaScript expression session.expires_at: undefined
and 0 are falsy, every other number is truthy. -/
def expiresAtTruthy : Option Int → Bool
  | none => false
  | some v => !(decide (v = 0))

/-- Embedding of sessionStorage.hasValidSession at a given current time in
milliseconds: returns the boolean result together with the store it leaves
behind. The session is invalid when it is absent, or when
session.expires_at && Date.now() > session.expires_at * 1000, in which
case the stored session is also cleared. -/
def hasValidSession (now : Int) (store : SessionStore) : Bool × SessionStore :=
  match getSession store with
  | none => (false, store)
  | some s =>
    if expiresAtTruthy s.expires_at && decide (now > s.expires_at.getD 0 * 1000) then
      (false, clearSession store)
    else
      (true, store)

/-! ## Answer generator

The backend answer generator is not part of the repository snapshot (only
its Dockerfiles and an analysis report are); the following definitions are
modelled from the specification, section 4.7. -/

/-- Modelled from the spec: a chunk as handed to the Answer Generator by
the Retrieval Engine. -/
structure RetrievedChunk where
  id : Nat
  doc_id : Nat
  chunk_index : Int
  text : String
deriving DecidableEq

/-- Modelled from the spec: the answer payload
(text, sources, degraded flag). -/
structure AnswerResult where
  text : String
  sources : List Nat
  degraded : Bool
deriving DecidableEq

/-- Modelled from the spec: the question classes of the extractive
summarizer. -/
inductive QuestionClass : Type
  | informational
  | listSeeking
  | comparison
  | general
deriving DecidableEq

/-- Characters ending a sentence. -/
def isSentenceEnd (c : Char) : Bool := c = '.' || c = '!' || c = '?'

/-- Splits a character list into sentences, cutting after each sentence
terminator; acc holds the reversed current sentence. -/
def splitSentencesAux : List Char → List Char → List (List Char)
  | [], [] => []
  | [], acc => [acc.reverse]
  | c :: rest, acc =>
    if isSentenceEnd c then (acc.reverse ++ [c]) :: splitSentencesAux rest []
    else splitSentencesAux rest (c :: acc)

/-- Modelled from the spec: sentence segmentation of the context; every
character of the input is kept, so the sentences concatenate back to the
original text and each sentence is non-empty. -/
def splitSentences (s : String) : List String :=
  (splitSentencesAux s.data []).map (fun cs => String.mk cs)

/-- Characters separating words. -/
def isWordSep (c : Char) : Bool :=
  c = ' ' || c = '\n' || c = '\t' || c = ',' || c = ';' || c = ':' ||
  isSentenceEnd c

/-- Lower-cases one basic-latin letter. -/
def lowerChar (c : Char) : Char :=
  if 'A' ≤ c ∧ c ≤ 'Z' then Char.ofNat (c.toNat + 32) else c

/-- Splits a character list into lower-cased words at separator
characters; acc holds the reversed current word. -/
def wordsAux : List Char → List Char → List String
  | [], [] => []
  | [], acc => [String.mk acc.reverse]
  | c :: rest, acc =>
    if isWordSep c then
      if acc.isEmpty then wordsAux rest []
      else String.mk acc.reverse :: wordsAux rest []
    else wordsAux rest (lowerChar c :: acc)

/-- Modelled from the spec: lower-cased whitespace-and-punctuation
tokenization used for lexical cues and keyword overlap. -/
def tokenize (s : String) : List String :=
  wordsAux s.data []

/-- Modelled from the spec: stop words removed before keyword overlap. -/
def stopWords : List String :=
  ["the", "a", "an", "is", "are", "was", "were", "of", "to", "in", "on",
   "and", "or", "for", "with", "do", "does", "i"]

/-- Modelled from the spec: the question keywords, its tokens minus stop
words. -/
def keywords (question : String) : List String :=
  (tokenize question).filter (fun w => !(stopWords.contains w))

/-- Modelled from the spec: question classification by lexical cues;
presence of list or what are marks a list-seeking question, vs or
difference a comparison, what or how an informational one, anything else
is general. -/
def classifyQuestion (question : String) : QuestionClass :=
  let ws := tokenize question
  if ws.contains "list" || (ws.contains "what" && ws.contains "are") then
    QuestionClass.listSeeking
  else if ws.contains "vs" || ws.contains "difference" then
    QuestionClass.comparison
  else if ws.contains "what" || ws.contains "how" then
    QuestionClass.informational
  else QuestionClass.general

/-- Modelled from the spec: sentence relevance, the number of question
keywords occurring among the tokens of the sentence. -/
def scoreSentence (ks : List String) (sentence : String) : Nat :=
  ks.countP (fun k => (tokenize sentence).contains k)

/-- Modelled from the spec: how many top sentences each question class
selects; list-seeking questions take more sentences. -/
def sentenceCountFor : QuestionClass → Nat
  | QuestionClass.listSeeking => 5
  | QuestionClass.comparison => 4
  | _ => 3

/-- Modelled from the spec: the extractive summarizer. Sentences of the
context are ranked by relevance to the question (stable, so earlier
sentences win ties), the top sentences for the question class are chosen,
reordered by original position, and concatenated. -/
def extractiveSummary (question context : String) : String :=
  let sents := splitSentences context
  let ks := keywords question
  let ranked := (sents.enum).insertionSort
    (fun a b => scoreSentence ks b.2 ≤ scoreSentence ks a.2)
  let chosen := (ranked.take (sentenceCountFor (classifyQuestion question))).insertionSort
    (fun a b => a.1 ≤ b.1)
  String.join (chosen.map (fun p => p.2))

/-- Modelled from the spec: the fixed response when retrieval produced no
context. -/
def insufficientContextAnswer : String :=
  "I could not find relevant information in the documents to answer this question."

/-- Modelled from the spec: the context window, the chunk texts
concatenated in the order the Retrieval Engine returned them. -/
def assembleContext (chunks : List RetrievedChunk) : String :=
  String.join (chunks.map (fun c => c.text))

/-- Modelled from the spec: the prompt handed to the generative
capability. -/
def promptTemplate (context question : String) : String :=
  "Answer the question using only the context.\nContext: " ++ context ++
    "\nQuestion: " ++ question

/-- Modelled from the spec: the Answer Generator. With no retrieved chunks
it returns the fixed insufficient-context response, not degraded. Otherwise
it attempts generative completion; on success it returns the generated
text, and on any generation failure it falls back to the extractive
summarizer with degraded set. The function is total: generation failures
never escape to the caller. -/
def answer (complete : String → Except String String) (question : String)
    (chunks : List RetrievedChunk) : AnswerResult :=
  if chunks.isEmpty then
    ⟨insufficientContextAnswer, [], false⟩
  else
    match complete (promptTemplate (assembleContext chunks) question) with
    | Except.ok generated =>
        ⟨generated, chunks.map (fun c => c.id), false⟩
    | Except.error _ =>
        ⟨extractiveSummary question (assembleContext chunks),
          chunks.map (fun c => c.id), true⟩

/-! ## Lemmas about the similarity search -/

/-- Containers of the match result built from one chunk row. -/
def toMatchResult (dist : List α → List α → α) (query_embedding : List α)
    (c : ApiChunk α) : MatchResult α :=
  ⟨c.id, c.doc_id, c.chunk_text, c.metadata, c.chunk_index,
    similarityTo dist query_embedding c⟩

theorem match_documents_eq_map (dist : List α → List α → α)
    (table : List (ApiChunk α)) (q : List α) (th : α) (k : Nat)
    (f : Option Nat) :
    match_documents dist table q th k f =
      ((((table.filter (fun c =>
            decide (similarityTo dist q c > th) && matchesDocFilter f c)).insertionSort
          (fun a b => dist a.embedding q ≤ dist b.embedding q)).take k).map
        (toMatchResult dist q)) := rfl

theorem exists_chunk_of_mem_match_documents {dist : List α → List α → α}
    {table : List (ApiChunk α)} {q : List α} {th : α} {k : Nat}
    {f : Option Nat} {r : MatchResult α}
    (hr : r ∈ match_documents dist table q th k f) :
    ∃ c ∈ table, r = toMatchResult dist q c ∧
      th < similarityTo dist q c ∧ matchesDocFilter f c = true := by
  rw [match_documents_eq_map] at hr
  rcases List.mem_map.1 hr with ⟨c, hc, hcr⟩
  have hc2 : c ∈ (table.filter (fun c =>
      decide (similarityTo dist q c > th) && matchesDocFilter f c)).insertionSort
        (fun a b => dist a.embedding q ≤ dist b.embedding q) :=
    List.mem_of_mem_take hc
  rw [List.mem_insertionSort] at hc2
  have hp := (List.mem_filter.1 hc2).2
  rw [Bool.and_eq_true, decide_eq_true_eq] at hp
  exact ⟨c, (List.mem_filter.1 hc2).1, hcr.symm, hp.1, hp.2⟩

theorem similarity_toMatchResult (dist : List α → List α → α) (q : List α)
    (c : ApiChunk α) :
    (toMatchResult dist q c).similarity = similarityTo dist q c := rfl

theorem mem_match_documents_sim_gt {dist : List α → List α → α}
    {table : List (ApiChunk α)} {q : List α} {th : α} {k : Nat}
    {f : Option Nat} {r : MatchResult α}
    (hr : r ∈ match_documents dist table q th k f) : th < r.similarity := by
  rcases exists_chunk_of_mem_match_documents hr with ⟨c, _, rfl, hth, _⟩
  exact hth

theorem mem_match_documents_doc_id {dist : List α → List α → α}
    {table : List (ApiChunk α)} {q : List α} {th : α} {k : Nat} {d : Nat}
    {r : MatchResult α}
    (hr : r ∈ match_documents dist table q th k (some d)) : r.doc_id = d := by
  rcases exists_chunk_of_mem_match_documents hr with ⟨c, _, rfl, _, hf⟩
  rw [matchesDocFilter, decide_eq_true_eq] at hf
  exact hf

theorem mem_match_documents_of_mem {dist : List α → List α → α}
    {table : List (ApiChunk α)} {q : List α} {th : α} {k : Nat}
    {c : ApiChunk α} (hc : c ∈ table) (hth : th < similarityTo dist q c)
    (hk : table.length ≤ k) :
    toMatchResult dist q c ∈ match_documents dist table q th k none := by
  rw [match_documents_eq_map]
  apply List.mem_map_of_mem
  have h1 : c ∈ table.filter (fun c =>
      decide (similarityTo dist q c > th) && matchesDocFilter none c) :=
    List.mem_filter.2 ⟨hc, by
      rw [Bool.and_eq_true, decide_eq_true_eq]
      exact ⟨hth, rfl⟩⟩
  have h2 : c ∈ (table.filter (fun c =>
      decide (similarityTo dist q c > th) && matchesDocFilter none c)).insertionSort
        (fun a b => dist a.embedding q ≤ dist b.embedding q) :=
    (List.mem_insertionSort _).2 h1
  have hlen : ((table.filter (fun c =>
      decide (similarityTo dist q c > th) && matchesDocFilter none c)).insertionSort
        (fun a b => dist a.embedding q ≤ dist b.embedding q)).length ≤ k :=
    le_trans (le_of_eq (List.perm_insertionSort _ _).length_eq)
      (le_trans (List.length_filter_le _ _) hk)
  rw [List.take_of_length_le hlen]
  exact h2

theorem match_documents_sorted_by_similarity (dist : List α → List α → α)
    (table : List (ApiChunk α)) (q : List α) (th : α) (k : Nat)
    (f : Option Nat) :
    List.Sorted (fun a b : MatchResult α => b.similarity ≤ a.similarity)
      (match_documents dist table q th k f) := by
  haveI : IsTotal (ApiChunk α)
      (fun a b => dist a.embedding q ≤ dist b.embedding q) :=
    ⟨fun a b => le_total _ _⟩
  haveI : IsTrans (ApiChunk α)
      (fun a b => dist a.embedding q ≤ dist b.embedding q) :=
    ⟨fun _ _ _ hab hbc => le_trans hab hbc⟩
  have hs : List.Sorted (fun a b : ApiChunk α =>
      dist a.embedding q ≤ dist b.embedding q)
      ((table.filter (fun c =>
          decide (similarityTo dist q c > th) && matchesDocFilter f c)).insertionSort
        (fun a b => dist a.embedding q ≤ dist b.embedding q)) :=
    List.sorted_insertionSort _ _
  have ht : List.Sorted (fun a b : ApiChunk α =>
      dist a.embedding q ≤ dist b.embedding q)
      (((table.filter (fun c =>
          decide (similarityTo dist q c > th) && matchesDocFilter f c)).insertionSort
        (fun a b => dist a.embedding q ≤ dist b.embedding q)).take k) :=
    List.Pairwise.sublist (List.take_sublist _ _) hs
  rw [match_documents_eq_map, List.Sorted, List.pairwise_map]
  refine ht.imp ?_
  intro a b hab
  rw [similarity_toMatchResult, similarity_toMatchResult]
  unfold similarityTo
  exact sub_le_sub_left hab 1

theorem match_documents_length_le (dist : List α → List α → α)
    (table : List (ApiChunk α)) (q : List α) (th : α) (k : Nat)
    (f : Option Nat) :
    (match_documents dist table q th k f).length ≤ k := by
  rw [match_documents_eq_map, List.length_map]
  exact le_trans (le_of_eq (List.length_take _ _)) (min_le_left _ _)

/-! ## Lemmas about cosine distance -/

theorem dotList_nil_left (v : List ℝ) : dotList [] v = 0 := by
  cases v <;> rfl

theorem dotList_nil_right (u : List ℝ) : dotList u [] = 0 := by
  cases u <;> rfl

theorem dotList_cons (a b : ℝ) (u v : List ℝ) :
    dotList (a :: u) (b :: v) = a * b + dotList u v := rfl

theorem dotList_self_nonneg (u : List ℝ) : 0 ≤ dotList u u := by
  induction u with
  | nil => rw [dotList_nil_left]
  | cons a u ih =>
    rw [dotList_cons]
    nlinarith [mul_self_nonneg a]

theorem dotList_sq_le : ∀ u v : List ℝ,
    dotList u v ^ 2 ≤ dotList u u * dotList v v
  | [], v => by
    rw [dotList_nil_left, dotList_nil_left]
    nlinarith [dotList_self_nonneg v]
  | a :: u, [] => by
    rw [dotList_nil_right, dotList_nil_right]
    nlinarith [dotList_self_nonneg (a :: u)]
  | a :: u, b :: v => by
    have ih := dotList_sq_le u v
    have hU := dotList_self_nonneg u
    have hV := dotList_self_nonneg v
    rw [dotList_cons, dotList_cons, dotList_cons]
    rcases eq_or_lt_of_le hV with h0 | hpos
    · have hS0 : dotList u v = 0 := by nlinarith
      rw [hS0, ← h0]
      nlinarith [mul_self_nonneg (a * b), mul_nonneg hU (mul_self_nonneg b)]
    · nlinarith [sq_nonneg (a * dotList v v - b * dotList u v),
        mul_nonneg (add_nonneg (mul_self_nonneg b) hV)
          (sub_nonneg.2 ih), hpos]

/-- Bounds for the similarity expression 1 - cosineDistance: it is plain
cosine similarity and lies in the closed interval from -1 to 1. -/
theorem cosine_similarity_bounds (u v : List ℝ) :
    -1 ≤ 1 - cosineDistance u v ∧ 1 - cosineDistance u v ≤ 1 := by
  unfold cosineDistance
  have hA : 0 ≤ Real.sqrt (dotList u u) := Real.sqrt_nonneg _
  have hB : 0 ≤ Real.sqrt (dotList v v) := Real.sqrt_nonneg _
  have hA2 : Real.sqrt (dotList u u) ^ 2 = dotList u u :=
    Real.sq_sqrt (dotList_self_nonneg u)
  have hB2 : Real.sqrt (dotList v v) ^ 2 = dotList v v :=
    Real.sq_sqrt (dotList_self_nonneg v)
  have hCS := dotList_sq_le u v
  have hsimp : (1 : ℝ) - (1 - dotList u v /
      (Real.sqrt (dotList u u) * Real.sqrt (dotList v v))) =
      dotList u v / (Real.sqrt (dotList u u) * Real.sqrt (dotList v v)) := by
    ring
  rw [hsimp]
  have hD : 0 ≤ Real.sqrt (dotList u u) * Real.sqrt (dotList v v) :=
    mul_nonneg hA hB
  rcases eq_or_lt_of_le hD with h0 | hpos
  · rw [← h0, div_zero]
    norm_num
  · have hS2 : dotList u v ^ 2 ≤
        (Real.sqrt (dotList u u) * Real.sqrt (dotList v v)) ^ 2 := by
      rw [mul_pow, hA2, hB2]
      exact hCS
    constructor
    · rw [le_div_iff₀ hpos]
      nlinarith
    · rw [div_le_one hpos]
      nlinarith

/-! ## Lemmas about the extractive summarizer -/

theorem splitSentencesAux_forall_ne_nil :
    ∀ (cs acc : List Char), ∀ s ∈ splitSentencesAux cs acc, s ≠ [] := by
  intro cs
  induction cs with
  | nil =>
    intro acc s hs
    cases acc with
    | nil => simp [splitSentencesAux] at hs
    | cons c acc =>
      simp [splitSentencesAux] at hs
      subst hs
      simp
  | cons c rest ih =>
    intro acc s hs
    by_cases hc : isSentenceEnd c
    · rw [splitSentencesAux, if_pos hc] at hs
      rcases List.mem_cons.1 hs with h | h
      · subst h
        simp
      · exact ih [] s h
    · rw [splitSentencesAux, if_neg hc] at hs
      exact ih (c :: acc) s hs

theorem splitSentencesAux_ne_nil :
    ∀ (cs acc : List Char), ¬(cs = [] ∧ acc = []) →
      splitSentencesAux cs acc ≠ [] := by
  intro cs
  induction cs with
  | nil =>
    intro acc hacc
    cases acc with
    | nil => exact absurd ⟨rfl, rfl⟩ hacc
    | cons c acc => simp [splitSentencesAux]
  | cons c rest ih =>
    intro acc _
    by_cases hc : isSentenceEnd c
    · rw [splitSentencesAux, if_pos hc]
      simp
    · rw [splitSentencesAux, if_neg hc]
      exact ih (c :: acc) (by simp)

theorem splitSentences_ne_nil {s : String} (h : s ≠ "") :
    splitSentences s ≠ [] := by
  unfold splitSentences
  rw [Ne, List.map_eq_nil_iff]
  apply splitSentencesAux_ne_nil
  rintro ⟨h1, -⟩
  exact h (String.ext_iff.2 (by simpa using h1))

theorem ne_empty_of_mem_splitSentences {s t : String}
    (ht : t ∈ splitSentences s) : t ≠ "" := by
  unfold splitSentences at ht
  rcases List.mem_map.1 ht with ⟨cs, hcs, rfl⟩
  intro hempty
  exact splitSentencesAux_forall_ne_nil s.data [] cs hcs
    (congrArg String.data hempty)

theorem length_le_foldl_append :
    ∀ (l : List String) (init : String),
      init.length ≤ (List.foldl (fun r s => r ++ s) init l).length := by
  intro l
  induction l with
  | nil =>
    intro init
    simp
  | cons s t ih =>
    intro init
    rw [List.foldl_cons]
    refine le_trans ?_ (ih (init ++ s))
    rw [String.length_append]
    omega

theorem join_ne_empty {l : List String} (hne : l ≠ [])
    (hall : ∀ s ∈ l, s ≠ "") : String.join l ≠ "" := by
  cases l with
  | nil => exact absurd rfl hne
  | cons h t =>
    have hh : h ≠ "" := hall h (List.mem_cons_self h t)
    have hlen : 0 < h.length := by
      rcases Nat.eq_zero_or_pos h.length with h0 | hpos
    -- a string of length zero has empty data, hence is the empty string
      · exact absurd (String.ext_iff.2 (List.length_eq_zero.1 h0)) hh
      · exact hpos
    have hmono : h.length ≤ (String.join (h :: t)).length := by
      show h.length ≤ (List.foldl (fun r s => r ++ s) "" (h :: t)).length
      rw [List.foldl_cons, String.empty_append]
      exact length_le_foldl_append t h
    intro hjoin
    rw [hjoin] at hmono
    simp at hmono
    omega

theorem mem_of_mem_selection {β : Type} (sents : List β)
    (r1 r2 : Nat × β → Nat × β → Prop) [DecidableRel r1] [DecidableRel r2]
    (k : Nat) (p : Nat × β)
    (hp : p ∈ (((sents.enum).insertionSort r1).take k).insertionSort r2) :
    p.2 ∈ sents := by
  rw [List.mem_insertionSort] at hp
  have h2 : p ∈ (sents.enum).insertionSort r1 := List.mem_of_mem_take hp
  rw [List.mem_insertionSort] at h2
  exact List.getElem?_mem (List.mem_enum_iff_getElem?.1 h2)

theorem selection_ne_nil {β : Type} (sents : List β)
    (r1 r2 : Nat × β → Nat × β → Prop) [DecidableRel r1] [DecidableRel r2]
    (k : Nat) (hne : sents ≠ []) (hk : 1 ≤ k) :
    (((sents.enum).insertionSort r1).take k).insertionSort r2 ≠ [] := by
  apply List.ne_nil_of_length_pos
  rw [(List.perm_insertionSort r2 _).length_eq, List.length_take,
    (List.perm_insertionSort r1 _).length_eq, List.enum_length]
  have : 0 < sents.length := List.length_pos.2 hne
  omega

theorem one_le_sentenceCountFor (qc : QuestionClass) :
    1 ≤ sentenceCountFor qc := by
  cases qc <;> simp [sentenceCountFor]

theorem extractiveSummary_ne_empty (question : String) {context : String}
    (h : context ≠ "") : extractiveSummary question context ≠ "" := by
  unfold extractiveSummary
  apply join_ne_empty
  · rw [Ne, List.map_eq_nil_iff]
    exact selection_ne_nil (splitSentences context) _ _ _
      (splitSentences_ne_nil h)
      (one_le_sentenceCountFor (classifyQuestion question))
  · intro s hs
    rcases List.mem_map.1 hs with ⟨p, hp, rfl⟩
    exact ne_empty_of_mem_splitSentences
      (mem_of_mem_selection (splitSentences context) _ _ _ p hp)

theorem assembleContext_nil : assembleContext [] = "" := rfl

/-! ## Lemmas about match_chunks -/

/-- Result row of match_chunks built from one chunk row. -/
def toChunkResult (dist : List α → List α → α) (query_embedding : List α)
    (c : ApiChunk α) : ChunkResult α :=
  ⟨c.id, c.chunk_text, c.metadata, similarityTo dist query_embedding c⟩

theorem match_chunks_eq_map (dist : List α → List α → α)
    (table : List (ApiChunk α)) (q : List α) (th : α) (k : Nat)
    (doc_id : Option Nat) :
    match_chunks dist table q th k doc_id =
      ((((table.filter (fun c =>
            (match doc_id with
             | none => true
             | some d => decide (c.doc_id = d)) &&
            decide (similarityTo dist q c > th))).insertionSort
          (fun a b => dist a.embedding q ≤ dist b.embedding q)).take k).map
        (toChunkResult dist q)) := rfl

theorem mem_match_chunks_sim_gt {dist : List α → List α → α}
    {table : List (ApiChunk α)} {q : List α} {th : α} {k : Nat}
    {doc_id : Option Nat} {r : ChunkResult α}
    (hr : r ∈ match_chunks dist table q th k doc_id) : th < r.similarity := by
  rw [match_chunks_eq_map] at hr
  rcases List.mem_map.1 hr with ⟨c, hc, hcr⟩
  have hc2 : c ∈ (table.filter (fun c =>
      (match doc_id with
       | none => true
       | some d => decide (c.doc_id = d)) &&
      decide (similarityTo dist q c > th))).insertionSort
        (fun a b => dist a.embedding q ≤ dist b.embedding q) :=
    List.mem_of_mem_take hc
  rw [List.mem_insertionSort] at hc2
  have hp := (List.mem_filter.1 hc2).2
  rw [Bool.and_eq_true, decide_eq_true_eq] at hp
  rw [← hcr]
  exact hp.2

/-! ## Claims -/

/-- C1, counterexample. The claim fails on the code in both directions: the
ChatInterface renderer shows Processing for a document whose chunkCount is 3
when the stored status still says processing (chunk_count does not override
the stale field there), and the document-list renderer reports Ready for a
document whose status field says ready while chunk_count is 0 (reported
readiness does not imply chunk_count > 0). -/
theorem claim_C1_counterexample :
    chatProcessingStatus "processing" 3 ≠ StatusDisplay.ready ∧
    (0 : Int) < 3 ∧
    renderProcessingStatus "ready" 0 = StatusDisplay.ready ∧
    ¬((0 : Int) > 0) := by
  refine ⟨?_, by norm_num, ?_, by norm_num⟩
  · rw [chatProcessingStatus]
    simp
  · rw [renderProcessingStatus]
    simp

/-- C1, amended. In the standalone document-list ProcessingStatus renderer a
document is reported ready exactly when its status field says ready or its
chunk_count is positive, so chunk_count > 0 does force the Ready display
there; the ChatInterface renderer reports ready exactly when the status
field says ready, ignoring chunk_count entirely. -/
theorem claim_C1_amended (status : String) (chunkCount : Int) :
    (renderProcessingStatus status chunkCount = StatusDisplay.ready ↔
      (status = "ready" ∨ chunkCount > 0)) ∧
    (chatProcessingStatus status chunkCount = StatusDisplay.ready ↔
      status = "ready") := by
  constructor
  · rw [renderProcessingStatus]
    split_ifs with h1 h2 h3 h4 <;> simp_all
  · rw [chatProcessingStatus]
    split_ifs with h1 h2 h3 <;> simp_all

/-- C2. Every row returned by match_documents has similarity strictly
greater than the supplied threshold, and likewise for match_chunks: the
WHERE clause keeps a row only when
1 - (embedding <=> query_embedding) > match_threshold. -/
theorem claim_C2_threshold_strict {α : Type} [LinearOrderedRing α]
    (dist : List α → List α → α) (table : List (ApiChunk α)) (q : List α)
    (th : α) (k : Nat) (f : Option Nat) :
    (match_documents dist table q th k f).Forall
      (fun r => th < r.similarity) ∧
    (match_chunks dist table q th k f).Forall
      (fun r => th < r.similarity) :=
  ⟨List.forall_iff_forall_mem.2 (fun _ hr => mem_match_documents_sim_gt hr),
   List.forall_iff_forall_mem.2 (fun _ hr => mem_match_chunks_sim_gt hr)⟩

/-- C3, amended. The rows returned by match_documents are sorted by
descending similarity (the ORDER BY on ascending distance); the claimed
tie-break by ascending chunk_index does not exist in the source, whose
ORDER BY has no secondary key, so equal-similarity rows stay in store
order. -/
theorem claim_C3_sorted_descending {α : Type} [LinearOrderedRing α]
    (dist : List α → List α → α) (table : List (ApiChunk α)) (q : List α)
    (th : α) (k : Nat) (f : Option Nat) :
    List.Sorted (fun a b : MatchResult α => b.similarity ≤ a.similarity)
      (match_documents dist table q th k f) :=
  match_documents_sorted_by_similarity dist table q th k f

/-- C6, counterexample. The claim that the similarity-search functions
default to a threshold of exactly 0.78 fails for match_chunks, whose
declared DEFAULT is 0.1. -/
theorem claim_C6_counterexample :
    match_chunks_default_threshold = 1 / 10 ∧
    ¬(match_chunks_default_threshold = 78 / 100) := by
  constructor
  · rfl
  · rw [match_chunks_default_threshold]
    norm_num

/-- C6, amended. match_documents defaults to threshold 0.78 and cap 5;
match_chunks defaults to the same cap 5 but to threshold 0.1. -/
theorem claim_C6_defaults :
    match_documents_default_threshold = 78 / 100 ∧
    match_documents_default_count = 5 ∧
    match_chunks_default_threshold = 1 / 10 ∧
    match_chunks_default_count = 5 :=
  ⟨rfl, rfl, rfl, rfl⟩

/-- C7. match_documents returns at most match_count rows: the LIMIT is
applied after the ORDER BY. -/
theorem claim_C7_limit {α : Type} [LinearOrderedRing α]
    (dist : List α → List α → α) (table : List (ApiChunk α)) (q : List α)
    (th : α) (k : Nat) (f : Option Nat) :
    (match_documents dist table q th k f).length ≤ k :=
  match_documents_length_le dist table q th k f

/-- C8. When the filter carries a doc_id every returned row belongs to that
document, and without a filter every chunk of any document that clears the
threshold is returned (whenever the limit does not cut it off). -/
theorem claim_C8_doc_filter {α : Type} [LinearOrderedRing α]
    (dist : List α → List α → α) (table : List (ApiChunk α)) (q : List α)
    (th : α) (k : Nat) :
    (∀ d : Nat, (match_documents dist table q th k (some d)).Forall
      (fun r => r.doc_id = d)) ∧
    (∀ c ∈ table, th < similarityTo dist q c → table.length ≤ k →
      toMatchResult dist q c ∈ match_documents dist table q th k none) :=
  ⟨fun _ => List.forall_iff_forall_mem.2
      (fun _ hr => mem_match_documents_doc_id hr),
   fun _ hc hth hk => mem_match_documents_of_mem hc hth hk⟩

/-- C8, witness: on a concrete two-document store, the filtered query
returns only rows of document 2, and without a filter the chunk of
document 2 that clears the threshold is among the results. -/
theorem claim_C8_witness :
    ((match_documents (fun u v => (u.headD 0 - v.headD 0) ^ 2)
        [⟨1, 1, "a", [], [3], 5⟩, ⟨2, 2, "b", [], [1], 2⟩]
        [1] (-100 : ℤ) 5 (some 2)).Forall (fun r => r.doc_id = 2)) ∧
    toMatchResult (fun u v => (u.headD 0 - v.headD 0) ^ 2) [1]
        (⟨2, 2, "b", [], [1], 2⟩ : ApiChunk ℤ) ∈
      match_documents (fun u v => (u.headD 0 - v.headD 0) ^ 2)
        [⟨1, 1, "a", [], [3], 5⟩, ⟨2, 2, "b", [], [1], 2⟩]
        [1] (-100 : ℤ) 5 none :=
  ⟨(claim_C8_doc_filter (fun u v => (u.headD 0 - v.headD 0) ^ 2)
      [⟨1, 1, "a", [], [3], 5⟩, ⟨2, 2, "b", [], [1], 2⟩]
      [1] (-100 : ℤ) 5).1 2,
   (claim_C8_doc_filter (fun u v => (u.headD 0 - v.headD 0) ^ 2)
      [⟨1, 1, "a", [], [3], 5⟩, ⟨2, 2, "b", [], [1], 2⟩]
      [1] (-100 : ℤ) 5).2 ⟨2, 2, "b", [], [1], 2⟩ (by decide) (by decide)
      (by decide)⟩

/-- C9. After handleDelete runs for a document id, no chunk of that
document remains (the table delete cascades and the explicit chunk delete
repeats it), and the document row itself is gone. -/
theorem claim_C9_cascade_delete {α : Type} (db : Db α) (docId : Nat) :
    ((handleDelete db docId).chunks).Forall (fun c => ¬(c.doc_id = docId)) ∧
    ((handleDelete db docId).documents).Forall (fun d => ¬(d.id = docId)) := by
  constructor
  · rw [List.forall_iff_forall_mem]
    intro c hc
    simp only [handleDelete, deleteChunksByDoc, deleteDocumentRow,
      List.mem_filter, Bool.not_eq_eq_eq_not, Bool.not_true,
      decide_eq_false_iff_not] at hc
    exact hc.2
  · rw [List.forall_iff_forall_mem]
    intro d hd
    simp only [handleDelete, deleteChunksByDoc, deleteDocumentRow,
      List.mem_filter, Bool.not_eq_eq_eq_not, Bool.not_true,
      decide_eq_false_iff_not] at hd
    exact hd.2

/-- C10, counterexample. A stored session whose expires_at is 0 lies in the
past at time 5000 ms, yet hasValidSession reports it valid and leaves it in
place, because the JavaScript truthiness test on session.expires_at treats
0 like an absent field. -/
theorem claim_C10_counterexample :
    hasValidSession 5000 (some ⟨"t", "r", "u", some 0⟩) =
      (true, some ⟨"t", "r", "u", some 0⟩) ∧
    (0 : Int) * 1000 < 5000 := by
  constructor
  · rfl
  · norm_num

/-- C10, amended. For a stored session with a nonzero expires_at lying in
the past, hasValidSession returns false and clears the store, so a
following getSession returns null; and hasValidSession returns true exactly
when a session is stored and its expires_at is absent, zero, or not in the
past. -/
theorem claim_C10_amended :
    (∀ (now : Int) (s : StoredSession) (v : Int), s.expires_at = some v →
      v ≠ 0 → v * 1000 < now →
      (hasValidSession now (some s)).1 = false ∧
      getSession (hasValidSession now (some s)).2 = none) ∧
    (∀ (now : Int) (store : SessionStore),
      (hasValidSession now store).1 = true ↔
        ∃ s, store = some s ∧ (expiresAtTruthy s.expires_at = false ∨
          ¬(s.expires_at.getD 0 * 1000 < now))) := by
  constructor
  · intro now s v hse hv hnow
    have htruthy : expiresAtTruthy s.expires_at = true := by
      rw [hse, expiresAtTruthy]
      simpa using hv
    have hdec : decide (now > s.expires_at.getD 0 * 1000) = true := by
      rw [hse]
      exact decide_eq_true hnow
    simp [hasValidSession, getSession, clearSession, htruthy, hdec]
  · intro now store
    cases store with
    | none => simp [hasValidSession, getSession]
    | some s =>
      by_cases htruthy : expiresAtTruthy s.expires_at = true
      · by_cases hlt : s.expires_at.getD 0 * 1000 < now
        · have hdec : decide (now > s.expires_at.getD 0 * 1000) = true :=
            decide_eq_true hlt
          simp [hasValidSession, getSession, clearSession, htruthy, hdec, hlt]
        · have hdec : decide (now > s.expires_at.getD 0 * 1000) = false :=
            decide_eq_false hlt
          simp only [hasValidSession, getSession, htruthy, hdec,
            Bool.true_and, if_false, Bool.false_eq_true, true_iff]
          exact ⟨s, rfl, Or.inr hlt⟩
      · rw [Bool.not_eq_true] at htruthy
        simp [hasValidSession, getSession, htruthy]

/-- C10, witness for the amended claim: a session that expired at second 1
is invalidated at time 5000 ms and the store is cleared. -/
theorem claim_C10_witness :
    (hasValidSession 5000 (some ⟨"t", "r", "u", some 1⟩)).1 = false ∧
    getSession (hasValidSession 5000 (some ⟨"t", "r", "u", some 1⟩)).2 =
      none :=
  claim_C10_amended.1 5000 ⟨"t", "r", "u", some 1⟩ 1 rfl (by decide)
    (by decide)

/-- C5, amended. The similarity score of match_documents under the
pgvector cosine operator is plain cosine similarity
1 - cosineDistance, which lies in the closed interval from -1 to 1 (not a
quantity mapped onto the unit interval); every returned row additionally
has similarity strictly above the supplied threshold, so with a
nonnegative threshold all returned scores do lie between 0 and 1. -/
theorem claim_C5_score_bounds :
    (∀ u v : List ℝ,
      -1 ≤ 1 - cosineDistance u v ∧ 1 - cosineDistance u v ≤ 1) ∧
    (∀ (table : List (ApiChunk ℝ)) (q : List ℝ) (th : ℝ) (k : Nat)
      (f : Option Nat),
      (match_documents cosineDistance table q th k f).Forall
        (fun r => th < r.similarity ∧ -1 ≤ r.similarity ∧
          r.similarity ≤ 1)) := by
  constructor
  · exact cosine_similarity_bounds
  · intro table q th k f
    rw [List.forall_iff_forall_mem]
    intro r hr
    rcases exists_chunk_of_mem_match_documents hr with ⟨c, _, rfl, hth, _⟩
    exact ⟨hth, (cosine_similarity_bounds c.embedding q).1,
      (cosine_similarity_bounds c.embedding q).2⟩

/-- C5, counterexample. With a negative threshold, match_documents under
the cosine operator returns a row whose similarity is -1, which does not
lie between 0 and 1: the score is not cosine similarity mapped onto the
unit interval. -/
theorem claim_C5_counterexample :
    (match_documents cosineDistance [⟨1, 1, "c", [], [-1, 0], 0⟩]
        [1, 0] (-2 : ℝ) 5 none).map (fun r => r.similarity) = [-1] ∧
    ¬((0 : ℝ) ≤ -1) := by
  have hd1 : dotList [-1, 0] [1, 0] = -1 := by
    rw [dotList_cons, dotList_cons, dotList_nil_left]
    norm_num
  have hd2 : dotList [(-1 : ℝ), 0] [-1, 0] = 1 := by
    rw [dotList_cons, dotList_cons, dotList_nil_left]
    norm_num
  have hd3 : dotList [(1 : ℝ), 0] [1, 0] = 1 := by
    rw [dotList_cons, dotList_cons, dotList_nil_left]
    norm_num
  have hcos : cosineDistance [-1, 0] [1, 0] = 2 := by
    rw [cosineDistance, hd1, hd2, hd3, Real.sqrt_one]
    norm_num
  have hsim : similarityTo cosineDistance [1, 0]
      (⟨1, 1, "c", [], [-1, 0], 0⟩ : ApiChunk ℝ) = -1 := by
    rw [similarityTo]
    show (1 : ℝ) - cosineDistance [-1, 0] [1, 0] = -1
    rw [hcos]
    norm_num
  have hgt : (-1 : ℝ) > -2 := by norm_num
  refine ⟨?_, by norm_num⟩
  rw [match_documents_eq_map]
  simp only [List.filter_cons, List.filter_nil, matchesDocFilter,
    Bool.and_true, hsim, decide_eq_true_eq, eq_true hgt, if_true,
    List.insertionSort, List.orderedInsert, List.take, List.map,
    toMatchResult, hsim]

/-- C3, counterexample. Two chunks at cosine distance 0 from the query
(the embeddings are positive multiples of it) tie with similarity 1, yet
match_documents returns the row with chunk_index 5 before the row with
chunk_index 2, because its ORDER BY has no chunk_index tie-break and
store order prevails. -/
theorem claim_C3_counterexample :
    (match_documents cosineDistance
        [⟨1, 1, "a", [], [1, 0], 5⟩, ⟨2, 1, "b", [], [2, 0], 2⟩]
        [1, 0] (1 / 2 : ℝ) 5 none).map
      (fun r => (r.similarity, r.chunk_index)) = [(1, 5), (1, 2)] ∧
    ¬((5 : Int) ≤ 2) := by
  have hd11 : dotList [(1 : ℝ), 0] [1, 0] = 1 := by
    rw [dotList_cons, dotList_cons, dotList_nil_left]
    norm_num
  have hd21 : dotList [(2 : ℝ), 0] [1, 0] = 2 := by
    rw [dotList_cons, dotList_cons, dotList_nil_left]
    norm_num
  have hd22 : dotList [(2 : ℝ), 0] [2, 0] = 4 := by
    rw [dotList_cons, dotList_cons, dotList_nil_left]
    norm_num
  have hsq4 : Real.sqrt 4 = 2 := by
    rw [show (4 : ℝ) = 2 ^ 2 by norm_num,
      Real.sqrt_sq (by norm_num : (0 : ℝ) ≤ 2)]
  have hcA : cosineDistance [1, 0] [1, 0] = 0 := by
    rw [cosineDistance, hd11, Real.sqrt_one]
    norm_num
  have hcB : cosineDistance [2, 0] [1, 0] = 0 := by
    rw [cosineDistance, hd21, hd22, hd11, hsq4, Real.sqrt_one]
    norm_num
  have hsA : similarityTo cosineDistance [1, 0]
      (⟨1, 1, "a", [], [1, 0], 5⟩ : ApiChunk ℝ) = 1 := by
    rw [similarityTo]
    show (1 : ℝ) - cosineDistance [1, 0] [1, 0] = 1
    rw [hcA]
    norm_num
  have hsB : similarityTo cosineDistance [1, 0]
      (⟨2, 1, "b", [], [2, 0], 2⟩ : ApiChunk ℝ) = 1 := by
    rw [similarityTo]
    show (1 : ℝ) - cosineDistance [2, 0] [1, 0] = 1
    rw [hcB]
    norm_num
  have hgt : (1 : ℝ) > 1 / 2 := by norm_num
  refine ⟨?_, by norm_num⟩
  rw [match_documents_eq_map]
  simp only [List.filter_cons, List.filter_nil, matchesDocFilter,
    Bool.and_true, hsA, hsB, decide_eq_true_eq, eq_true hgt, if_true,
    List.insertionSort, List.orderedInsert, hcA, hcB, le_refl,
    List.take, List.map, toMatchResult]

/-- C4. When generation fails on the assembled prompt and the assembled
context is non-empty, the Answer Generator still returns a result (it is a
total function, so generation failures never reach the caller) whose
degraded flag is set and whose text is non-empty extractive output. -/
theorem claim_C4_degraded_fallback (complete : String → Except String String)
    (question err : String) (chunks : List RetrievedChunk)
    (hfail : complete (promptTemplate (assembleContext chunks) question) =
      Except.error err)
    (hctx : assembleContext chunks ≠ "") :
    (answer complete question chunks).degraded = true ∧
    (answer complete question chunks).text ≠ "" := by
  have hchunks : chunks.isEmpty = false := by
    cases chunks with
    | nil => exact absurd assembleContext_nil hctx
    | cons c t => rfl
  rw [answer, hchunks]
  simp only [Bool.false_eq_true, if_false, hfail]
  exact ⟨by trivial, extractiveSummary_ne_empty question hctx⟩

/-- C4, witness: with a generative capability that always fails, a
one-chunk context yields a degraded, non-empty answer. -/
theorem claim_C4_witness :
    (answer (fun _ => Except.error "downstream unavailable") "what is ab"
      [⟨7, 1, 0, "ab cd. ef gh."⟩]).degraded = true ∧
    (answer (fun _ => Except.error "downstream unavailable") "what is ab"
      [⟨7, 1, 0, "ab cd. ef gh."⟩]).text ≠ "" :=
  claim_C4_degraded_fallback (fun _ => Except.error "downstream unavailable")
    "what is ab" "downstream unavailable" [⟨7, 1, 0, "ab cd. ef gh."⟩]
    rfl (by decide)

end DevDocs
